import Mathlib

/-!
Verification of the core of `InternetSpeedMonitor.PY`: the `SpeedMonitor`
rate computation (`update_speed`) and the `AutoStartManager` operations
(`is_enabled`, `enable`, `disable`) over an explicit model of the OS stores
(Windows registry Run list, Linux autostart directory, macOS launch agents).
Real-valued quantities (Python floats, `time.time()` timestamps) are modelled
by exact rationals; byte counters by natural numbers; a fallible OS read by
an `Except Unit` value; try/except blocks by matching on that value.
-/

/-- Result of `psutil.net_io_counters()`: cumulative byte counters. -/
structure NetIoCounters where
  bytes_sent : Nat
  bytes_recv : Nat
  deriving DecidableEq

/-- Mutable state of a `SpeedMonitor` instance: the computed speeds and the
stored last snapshot (`last_upload`, `last_download`, `last_time`). -/
structure MonitorState where
  upload_speed : ℚ
  download_speed : ℚ
  last_upload : Nat
  last_download : Nat
  last_time : ℚ
  deriving DecidableEq

/-- Outcome of one call to `update_speed`: the state after the call and the
`speed_updated` emission, `some (upload_speed, download_speed)`, if any. -/
structure UpdateResult where
  state : MonitorState
  emitted : Option (ℚ × ℚ)
  deriving DecidableEq

/-- Embedding of `SpeedMonitor.update_speed` (lines 190-216 of the source).
The counter read `psutil.net_io_counters()` is the fallible step: `.error`
models an exception raised there, which the surrounding try/except catches
(log only, no re-raise). On a successful read the code computes
`time_diff = current_time - self.last_time`, returns early when
`time_diff < 0.1`, otherwise computes the two rates, overwrites the stored
snapshot and emits `(upload_speed, download_speed)`. -/
def update_speed (st : MonitorState) (net : Except Unit NetIoCounters)
    (current_time : ℚ) : UpdateResult :=
  match net with
  | .error _ => { state := st, emitted := none }
  | .ok net_io =>
    let time_diff := current_time - st.last_time
    if time_diff < 1/10 then
      { state := st, emitted := none }
    else
      let upload_diff : ℚ := (net_io.bytes_sent : ℚ) - (st.last_upload : ℚ)
      let download_diff : ℚ := (net_io.bytes_recv : ℚ) - (st.last_download : ℚ)
      let upload_speed := upload_diff / time_diff / 1024
      let download_speed := download_diff / time_diff / 1024
      { state := { upload_speed := upload_speed,
                   download_speed := download_speed,
                   last_upload := net_io.bytes_sent,
                   last_download := net_io.bytes_recv,
                   last_time := current_time },
        emitted := some (upload_speed, download_speed) }

/-- Association-list lookup, keyed by strings: first binding wins. Models
lookup of a registry value by name or of a file by path. -/
def alistLookup {α : Type} : List (String × α) → String → Option α
  | [], _ => none
  | (k', v) :: rest, k => if k' = k then some v else alistLookup rest k

/-- Removal of every binding for a key. Models `winreg.DeleteValue` and
`os.remove`; on a store without the key it is the identity, matching the
pass-on-missing behaviour of the source. -/
def alistErase {α : Type} (l : List (String × α)) (k : String) :
    List (String × α) :=
  l.filter (fun p => !(p.1 == k))

/-- Overwriting insertion: the store keeps at most one binding per key, as a
registry value list or a directory does. Models `winreg.SetValueEx` and
writing a file. -/
def alistSet {α : Type} (l : List (String × α)) (k : String) (v : α) :
    List (String × α) :=
  alistErase l k ++ [(k, v)]

/-- Number of bindings a store holds for a key. -/
def countKey {α : Type} (l : List (String × α)) (k : String) : Nat :=
  (l.filter (fun p => p.1 == k)).length

/-- Set-like insertion into a plain list (the set of loaded launch agents). -/
def listInsert (l : List String) (x : String) : List String :=
  if x ∈ l then l else l ++ [x]

/-- Removal from a plain list. -/
def listRemove (l : List String) (x : String) : List String :=
  l.filter (fun y => !(y == x))

/-- Content and permission bits of a file in the modelled filesystem. -/
structure FileData where
  content : String
  mode : Nat
  deriving DecidableEq

/-- Writing a file with `open(path, "w")`: content is replaced, an existing
file keeps its mode, a fresh file gets the default mode 0o644. -/
def fsWrite (files : List (String × FileData)) (path content : String) :
    List (String × FileData) :=
  match alistLookup files path with
  | some fd => alistSet files path { content := content, mode := fd.mode }
  | none => alistSet files path { content := content, mode := 0o644 }

/-- Changing the mode of a file with `os.chmod`; missing files are untouched. -/
def fsChmod (files : List (String × FileData)) (path : String) (mode : Nat) :
    List (String × FileData) :=
  match alistLookup files path with
  | some fd => alistSet files path { content := fd.content, mode := mode }
  | none => files

/-- State of the OS-level stores the autostart manager touches: the
per-user registry Run values (name, data), the Linux autostart directory
flag and its files, the macOS LaunchAgents directory flag and its files,
and the set of plist paths loaded into launchd. -/
structure Store where
  winRun : List (String × String)
  autostartDir : Bool
  autostartFiles : List (String × FileData)
  launchAgentsDir : Bool
  launchAgentFiles : List (String × FileData)
  loadedAgents : List String
  deriving DecidableEq

/-- State fixed at `AutoStartManager.__init__`: the application name, the
absolute path of the running executable, and `platform.system()`. -/
structure AutoStartManager where
  app_name : String
  app_path : String
  system : String
  deriving DecidableEq

/-- Path of the Linux desktop entry, `~/.config/autostart/{app_name}.desktop`
(braces shown here stand for interpolation in the source). -/
def desktopFilePath (app_name : String) : String :=
  "~/.config/autostart/" ++ app_name ++ ".desktop"

/-- Path of the macOS launch agent property list,
`~/Library/LaunchAgents/com.{app_name}.plist`. -/
def plistPath (app_name : String) : String :=
  "~/Library/LaunchAgents/com." ++ app_name ++ ".plist"

/-- Body the source writes into the desktop entry. -/
def desktopEntryContent (app_name app_path : String) : String :=
  "[Desktop Entry]\nType=Application\nName=" ++ app_name ++
    "\nExec=" ++ app_path ++
    "\nTerminal=false\nHidden=false\nX-GNOME-Autostart-enabled=true\n"

/-- Body the source writes into the launch agent property list. -/
def plistContent (app_name app_path : String) : String :=
  "<?xml version=\"1.0\" encoding=\"UTF-8\"?>\n<plist version=\"1.0\">\n" ++
    "<dict>\n<key>Label</key>\n<string>com." ++ app_name ++ "</string>\n" ++
    "<key>ProgramArguments</key>\n<array>\n<string>" ++ app_path ++
    "</string>\n</array>\n<key>RunAtLoad</key>\n<true/>\n</dict>\n</plist>\n"

/-- Embedding of `AutoStartManager.is_enabled` (lines 25-58). Windows: open
the Run key, query the value named `app_name`; a missing value
(`WindowsError`) gives `False`, a present one is compared with `app_path`.
Linux and macOS: `os.path.exists` on the registration file. Any other
platform: `False`. Total, so the `never raises` part of the contract holds
by construction; the fallible read is handled by `is_enabled_checked`. -/
def is_enabled (m : AutoStartManager) (s : Store) : Bool :=
  if m.system = "Windows" then
    match alistLookup s.winRun m.app_name with
    | some value => value == m.app_path
    | none => false
  else if m.system = "Linux" then
    (alistLookup s.autostartFiles (desktopFilePath m.app_name)).isSome
  else if m.system = "Darwin" then
    (alistLookup s.launchAgentFiles (plistPath m.app_name)).isSome
  else
    false

/-- Embedding of the try/except wrapper around `is_enabled`: when the OS
read itself raises (the `.error` case), the handler logs and returns
`False`. -/
def is_enabled_checked (m : AutoStartManager) (r : Except Unit Store) : Bool :=
  match r with
  | .error _ => false
  | .ok s => is_enabled m s

/-- Embedding of `AutoStartManager.enable` (lines 60-126). Windows:
`SetValueEx` overwrites the Run value. Linux: `os.makedirs` when the
autostart directory is absent (net effect: the directory exists), write the
desktop entry, `chmod 0o755`. macOS: `os.makedirs` when the LaunchAgents
directory is absent, write the plist, `launchctl load` it. Any other
platform: `False` and no change. Returns the boolean result and the store
after the call. -/
def enable (m : AutoStartManager) (s : Store) : Bool × Store :=
  if m.system = "Windows" then
    (true, { s with winRun := alistSet s.winRun m.app_name m.app_path })
  else if m.system = "Linux" then
    (true, { s with
              autostartDir := true,
              autostartFiles :=
                fsChmod
                  (fsWrite s.autostartFiles (desktopFilePath m.app_name)
                    (desktopEntryContent m.app_name m.app_path))
                  (desktopFilePath m.app_name) 0o755 })
  else if m.system = "Darwin" then
    (true, { s with
              launchAgentsDir := true,
              launchAgentFiles :=
                fsWrite s.launchAgentFiles (plistPath m.app_name)
                  (plistContent m.app_name m.app_path),
              loadedAgents := listInsert s.loadedAgents (plistPath m.app_name) })
  else
    (false, s)

/-- Embedding of `AutoStartManager.disable` (lines 128-167). Windows:
`DeleteValue` with the `WindowsError` swallowed, so a missing value is a
no-op and the call still returns `True`. Linux: remove the desktop entry if
it exists. macOS: if the plist exists, `launchctl unload` it and remove it.
Any other platform: `False` and no change. -/
def disable (m : AutoStartManager) (s : Store) : Bool × Store :=
  if m.system = "Windows" then
    (true, { s with winRun := alistErase s.winRun m.app_name })
  else if m.system = "Linux" then
    if (alistLookup s.autostartFiles (desktopFilePath m.app_name)).isSome then
      (true, { s with
                autostartFiles :=
                  alistErase s.autostartFiles (desktopFilePath m.app_name) })
    else
      (true, s)
  else if m.system = "Darwin" then
    if (alistLookup s.launchAgentFiles (plistPath m.app_name)).isSome then
      (true, { s with
                launchAgentFiles :=
                  alistErase s.launchAgentFiles (plistPath m.app_name),
                loadedAgents := listRemove s.loadedAgents (plistPath m.app_name) })
    else
      (true, s)
  else
    (false, s)

/-- Modelled from the words of the spec (spec 4.2): `the OS-specific registration
exists` — a Run value named `app_name` on Windows, the desktop entry on
Linux, the plist on macOS; on an unsupported platform no registration
exists. Used to compare `is_enabled` against the characterisation in the spec. -/
def registrationExistsSpec (m : AutoStartManager) (s : Store) : Bool :=
  if m.system = "Windows" then
    (alistLookup s.winRun m.app_name).isSome
  else if m.system = "Linux" then
    (alistLookup s.autostartFiles (desktopFilePath m.app_name)).isSome
  else if m.system = "Darwin" then
    (alistLookup s.launchAgentFiles (plistPath m.app_name)).isSome
  else
    false

/-- Number of registrations the store holds for the app of this manager, on the
platform of the manager. -/
def registrationCount (m : AutoStartManager) (s : Store) : Nat :=
  if m.system = "Windows" then
    countKey s.winRun m.app_name
  else if m.system = "Linux" then
    countKey s.autostartFiles (desktopFilePath m.app_name)
  else if m.system = "Darwin" then
    countKey s.launchAgentFiles (plistPath m.app_name)
  else
    0

/-- Store with no registrations anywhere: fresh user profile. -/
def emptyStore : Store :=
  { winRun := [], autostartDir := false, autostartFiles := [],
    launchAgentsDir := false, launchAgentFiles := [], loadedAgents := [] }

/-- Manager as constructed on Windows. -/
def managerWindows : AutoStartManager :=
  { app_name := "InternetSpeedMonitor",
    app_path := "C:/Apps/InternetSpeedMonitor.PY", system := "Windows" }

/-- Manager as constructed on Linux. -/
def managerLinux : AutoStartManager :=
  { app_name := "InternetSpeedMonitor",
    app_path := "/opt/ism/InternetSpeedMonitor.PY", system := "Linux" }

/-- Manager as constructed on macOS. -/
def managerDarwin : AutoStartManager :=
  { app_name := "InternetSpeedMonitor",
    app_path := "/opt/ism/InternetSpeedMonitor.PY", system := "Darwin" }

/-- Manager as constructed on an unsupported platform. -/
def managerOther : AutoStartManager :=
  { app_name := "InternetSpeedMonitor",
    app_path := "/opt/ism/InternetSpeedMonitor.PY", system := "FreeBSD" }

/-- C1: with non-negative byte deltas and elapsed time `dt ≥ 0.1`, a
successful `sample()` emits exactly `(Δsent/dt/1024, Δrecv/dt/1024)` and
replaces the stored last snapshot with the current reading. -/
theorem update_speed_emits_exact_rates (st : MonitorState)
    (net_io : NetIoCounters) (t : ℚ)
    (hsent : st.last_upload ≤ net_io.bytes_sent)
    (hrecv : st.last_download ≤ net_io.bytes_recv)
    (hdt : 1/10 ≤ t - st.last_time) :
    update_speed st (.ok net_io) t =
      { state := { upload_speed :=
                     ((net_io.bytes_sent : ℚ) - (st.last_upload : ℚ)) /
                       (t - st.last_time) / 1024,
                   download_speed :=
                     ((net_io.bytes_recv : ℚ) - (st.last_download : ℚ)) /
                       (t - st.last_time) / 1024,
                   last_upload := net_io.bytes_sent,
                   last_download := net_io.bytes_recv,
                   last_time := t },
        emitted := some
          (((net_io.bytes_sent : ℚ) - (st.last_upload : ℚ)) /
             (t - st.last_time) / 1024,
           ((net_io.bytes_recv : ℚ) - (st.last_download : ℚ)) /
             (t - st.last_time) / 1024) } := by
  simp only [update_speed]
  rw [if_neg (not_lt.mpr hdt)]

/-- Witness for C1 at the spec scenario (recv corrected to 3024 so the rate
is exactly 1.0): snapshot `(sent 1000, recv 2000)` at `t = 0`, reading
`(sent 2024, recv 3024)` at `t = 1` yields upload rate 1 KB/s, download rate
1 KB/s, and the stored snapshot becomes the current reading. -/
theorem update_speed_emits_exact_rates_witness :
    update_speed { upload_speed := 0, download_speed := 0, last_upload := 1000,
                   last_download := 2000, last_time := 0 }
        (.ok { bytes_sent := 2024, bytes_recv := 3024 }) 1 =
      { state := { upload_speed := 1, download_speed := 1, last_upload := 2024,
                   last_download := 3024, last_time := 1 },
        emitted := some (1, 1) } := by
  have h := update_speed_emits_exact_rates
    { upload_speed := 0, download_speed := 0, last_upload := 1000,
      last_download := 2000, last_time := 0 }
    { bytes_sent := 2024, bytes_recv := 3024 } 1
    (by decide) (by decide) (by norm_num)
  rw [h]
  norm_num

/-- C2: when `dt < 0.1`, `sample()` emits nothing and leaves the whole state,
in particular the stored snapshot, unchanged; consequently a later sample
behaves exactly as if this call had never happened (combined interval). -/
theorem update_speed_guard_noop (st : MonitorState) (net_io : NetIoCounters)
    (t : ℚ) (hdt : t - st.last_time < 1/10) :
    update_speed st (.ok net_io) t = { state := st, emitted := none } ∧
    ∀ (net₂ : Except Unit NetIoCounters) (t₂ : ℚ),
      update_speed (update_speed st (.ok net_io) t).state net₂ t₂ =
        update_speed st net₂ t₂ := by
  have h : update_speed st (.ok net_io) t = { state := st, emitted := none } := by
    simp only [update_speed]
    rw [if_pos hdt]
  exact ⟨h, fun net₂ t₂ => by rw [h]⟩

/-- Witness for C2 at the spec scenario: second sample at `t = 0.05` with the
guard interval `0.1`: nothing is emitted, the snapshot stays at its `t = 0`
values, and the following sample at `t = 1` computes over the full interval. -/
theorem update_speed_guard_noop_witness :
    (update_speed { upload_speed := 0, download_speed := 0, last_upload := 1000,
                    last_download := 2000, last_time := 0 }
        (.ok { bytes_sent := 1500, bytes_recv := 2500 }) (1/20) =
      { state := { upload_speed := 0, download_speed := 0, last_upload := 1000,
                   last_download := 2000, last_time := 0 },
        emitted := none }) ∧
    update_speed (update_speed { upload_speed := 0, download_speed := 0,
                                 last_upload := 1000, last_download := 2000,
                                 last_time := 0 }
        (.ok { bytes_sent := 1500, bytes_recv := 2500 }) (1/20)).state
        (.ok { bytes_sent := 2024, bytes_recv := 3024 }) 1 =
      update_speed { upload_speed := 0, download_speed := 0, last_upload := 1000,
                     last_download := 2000, last_time := 0 }
        (.ok { bytes_sent := 2024, bytes_recv := 3024 }) 1 := by
  have h := update_speed_guard_noop
    { upload_speed := 0, download_speed := 0, last_upload := 1000,
      last_download := 2000, last_time := 0 }
    { bytes_sent := 1500, bytes_recv := 2500 } (1/20) (by norm_num)
  exact ⟨h.1, h.2 (.ok { bytes_sent := 2024, bytes_recv := 3024 }) 1⟩

/-- C6: a failed counter read makes `sample()` a no-op: nothing is emitted,
nothing propagates (the function is total), the state is unchanged, and the
next sample behaves as if the failed call had never happened. -/
theorem update_speed_read_error_noop (st : MonitorState) (e : Unit) (t : ℚ)
    (net₂ : Except Unit NetIoCounters) (t₂ : ℚ) :
    update_speed st (.error e) t = { state := st, emitted := none } ∧
    update_speed (update_speed st (.error e) t).state net₂ t₂ =
      update_speed st net₂ t₂ :=
  ⟨rfl, rfl⟩

/-- Counterexample to C3 as stated: when the counters reset below the stored
snapshot, `update_speed` emits a negative rate; the negative delta is not
clamped to zero. With snapshot `(2000, 3000)` at `t = 0` and reading
`(1000, 2000)` at `t = 1`, both emitted rates are `-1000/1024 = -125/128`. -/
theorem negative_delta_emitted_counterexample :
    (update_speed { upload_speed := 0, download_speed := 0, last_upload := 2000,
                    last_download := 3000, last_time := 0 }
        (.ok { bytes_sent := 1000, bytes_recv := 2000 }) 1).emitted =
      some (-125/128, -125/128) ∧ (-125/128 : ℚ) < 0 := by
  constructor
  · simp only [update_speed]
    norm_num
  · norm_num

/-- C3 amended: whenever the current counters are at least the stored ones
(no counter wrap or reset), both emitted rates are non-negative; the source
does not clamp negative deltas, so a reset produces a negative rate. -/
theorem update_speed_rates_nonneg_of_monotone (st : MonitorState)
    (net_io : NetIoCounters) (t : ℚ) (r : ℚ × ℚ)
    (hsent : st.last_upload ≤ net_io.bytes_sent)
    (hrecv : st.last_download ≤ net_io.bytes_recv)
    (he : (update_speed st (.ok net_io) t).emitted = some r) :
    0 ≤ r.1 ∧ 0 ≤ r.2 := by
  simp only [update_speed] at he
  by_cases hdt : t - st.last_time < 1/10
  · rw [if_pos hdt] at he
    simp at he
  · rw [if_neg hdt] at he
    simp only [Option.some.injEq] at he
    have hpos : (0 : ℚ) < t - st.last_time :=
      lt_of_lt_of_le (by norm_num) (not_lt.mp hdt)
    have h1 : (0 : ℚ) ≤ (net_io.bytes_sent : ℚ) - (st.last_upload : ℚ) := by
      rw [sub_nonneg]
      exact_mod_cast hsent
    have h2 : (0 : ℚ) ≤ (net_io.bytes_recv : ℚ) - (st.last_download : ℚ) := by
      rw [sub_nonneg]
      exact_mod_cast hrecv
    constructor
    · rw [← he]
      exact div_nonneg (div_nonneg h1 hpos.le) (by norm_num)
    · rw [← he]
      exact div_nonneg (div_nonneg h2 hpos.le) (by norm_num)

/-- Witness for the amended C3: with monotone counters the emitted rates at a
concrete input are non-negative. -/
theorem update_speed_rates_nonneg_witness :
    0 ≤ ((1 : ℚ), (1 : ℚ)).1 ∧ 0 ≤ ((1 : ℚ), (1 : ℚ)).2 :=
  update_speed_rates_nonneg_of_monotone
    { upload_speed := 0, download_speed := 0, last_upload := 1000,
      last_download := 2000, last_time := 0 }
    { bytes_sent := 2024, bytes_recv := 3024 } 1 (1, 1)
    (by decide) (by decide)
    (by simp only [update_speed]; norm_num)

/-- Lookup skips a prefix in which the key is absent. -/
theorem alistLookup_append_of_none {α : Type} (l₁ l₂ : List (String × α))
    (k : String) (h : alistLookup l₁ k = none) :
    alistLookup (l₁ ++ l₂) k = alistLookup l₂ k := by
  induction l₁ with
  | nil => rfl
  | cons p rest ih =>
    obtain ⟨k', v⟩ := p
    by_cases hk : k' = k
    · simp [alistLookup, hk] at h
    · simp only [List.cons_append, alistLookup, if_neg hk] at h ⊢
      exact ih h

/-- After erasing a key it can no longer be looked up. -/
theorem alistLookup_erase {α : Type} (l : List (String × α)) (k : String) :
    alistLookup (alistErase l k) k = none := by
  induction l with
  | nil => rfl
  | cons p rest ih =>
    simp only [alistErase, List.filter_cons] at ih ⊢
    by_cases hk : p.1 = k
    · simp only [hk, beq_self_eq_true, Bool.not_true, if_neg]
      exact ih
    · have hb : (p.1 == k) = false := by simp [hk]
      simp only [hb, Bool.not_false, if_pos trivial, if_true]
      obtain ⟨k', v⟩ := p
      simp only [alistLookup, if_neg hk]
      exact ih

/-- Lookup after an overwriting insertion finds the inserted value. -/
theorem alistLookup_set {α : Type} (l : List (String × α)) (k : String)
    (v : α) :
    alistLookup (alistSet l k v) k = some v := by
  unfold alistSet
  rw [alistLookup_append_of_none _ _ _ (alistLookup_erase l k)]
  simp [alistLookup]

/-- Erasure is idempotent. -/
theorem alistErase_idem {α : Type} (l : List (String × α)) (k : String) :
    alistErase (alistErase l k) k = alistErase l k := by
  unfold alistErase
  rw [List.filter_filter]
  apply List.filter_congr
  intro p _
  cases h : p.1 == k <;> simp [h]

/-- Erasing the key just set cancels the insertion. -/
theorem alistErase_set {α : Type} (l : List (String × α)) (k : String)
    (v : α) :
    alistErase (alistSet l k v) k = alistErase l k := by
  unfold alistSet
  show alistErase (alistErase l k ++ [(k, v)]) k = alistErase l k
  unfold alistErase
  rw [List.filter_append, ← alistErase, ← alistErase, alistErase_idem]
  simp [alistErase]

/-- Two overwriting insertions at the same key collapse to the last one. -/
theorem alistSet_set {α : Type} (l : List (String × α)) (k : String)
    (v v' : α) :
    alistSet (alistSet l k v) k v' = alistSet l k v' := by
  show alistErase (alistSet l k v) k ++ [(k, v')] = alistSet l k v'
  rw [alistErase_set]
  rfl

/-- An erased key has no bindings left. -/
theorem countKey_erase {α : Type} (l : List (String × α)) (k : String) :
    countKey (alistErase l k) k = 0 := by
  unfold countKey alistErase
  rw [List.filter_filter]
  have h : ∀ p ∈ l, ((p.1 == k) && !(p.1 == k)) = false := by
    intro p _
    cases hp : p.1 == k <;> simp [hp]
  rw [List.filter_congr h]
  simp

/-- After an overwriting insertion the store holds exactly one binding for
the key. -/
theorem countKey_set {α : Type} (l : List (String × α)) (k : String) (v : α) :
    countKey (alistSet l k v) k = 1 := by
  unfold alistSet countKey
  rw [List.filter_append]
  have h : countKey (alistErase l k) k = 0 := countKey_erase l k
  unfold countKey at h
  rw [List.length_append, List.length_eq_zero.mp h]
  simp

/-- Set-like insertion is idempotent. -/
theorem listInsert_idem (l : List String) (x : String) :
    listInsert (listInsert l x) x = listInsert l x := by
  unfold listInsert
  by_cases h : x ∈ l
  · simp [h]
  · simp [h]

/-- Writing a file and then setting its mode is an overwriting insertion of
the new content with that mode. -/
theorem fsChmod_fsWrite (files : List (String × FileData)) (p c : String)
    (mo : Nat) :
    fsChmod (fsWrite files p c) p mo =
      alistSet files p { content := c, mode := mo } := by
  unfold fsWrite
  cases h : alistLookup files p with
  | some fd => simp only [fsChmod, alistLookup_set, alistSet_set]
  | none => simp only [fsChmod, alistLookup_set, alistSet_set]

/-- Writing the same content twice equals writing it once. -/
theorem fsWrite_idem (files : List (String × FileData)) (p c : String) :
    fsWrite (fsWrite files p c) p c = fsWrite files p c := by
  cases h : alistLookup files p with
  | some fd => simp only [fsWrite, h, alistLookup_set, alistSet_set]
  | none => simp only [fsWrite, h, alistLookup_set, alistSet_set]

/-- A freshly written file is present. -/
theorem alistLookup_fsWrite_isSome (files : List (String × FileData))
    (p c : String) :
    (alistLookup (fsWrite files p c) p).isSome = true := by
  cases h : alistLookup files p with
  | some fd => simp [fsWrite, h, alistLookup_set]
  | none => simp [fsWrite, h, alistLookup_set]

/-- Characterisation of `is_enabled` against the registration predicate
taken from the spec: enabled iff the registration exists and, on Windows
(the only backend that records a path it checks), the recorded path is the
current executable path. -/
theorem is_enabled_eq_spec (m : AutoStartManager) (s : Store) :
    is_enabled m s = true ↔
      registrationExistsSpec m s = true ∧
        (m.system = "Windows" →
          alistLookup s.winRun m.app_name = some m.app_path) := by
  unfold is_enabled registrationExistsSpec
  by_cases hW : m.system = "Windows"
  · cases hv : alistLookup s.winRun m.app_name with
    | none => simp [hW, hv]
    | some value => simp [hW, hv, beq_iff_eq]
  · by_cases hL : m.system = "Linux"
    · simp [hW, hL]
    · by_cases hD : m.system = "Darwin"
      · simp [hW, hL, hD]
      · simp [hW, hL, hD]

/-- C4: for every platform variant and OS store state, `is_enabled` (with
its try/except wrapper) returns true iff the OS read succeeded, the
OS-specific registration exists, and — where checkable, i.e. on Windows —
the recorded path equals the current executable path. The function is
total, so it never raises, and a failed read yields false. -/
theorem is_enabled_iff_registration (m : AutoStartManager)
    (r : Except Unit Store) :
    is_enabled_checked m r = true ↔
      ∃ s, r = Except.ok s ∧ registrationExistsSpec m s = true ∧
        (m.system = "Windows" →
          alistLookup s.winRun m.app_name = some m.app_path) := by
  cases r with
  | error e => simp [is_enabled_checked]
  | ok s => simpa [is_enabled_checked] using is_enabled_eq_spec m s

/-- C10: on the Linux and macOS variants `is_enabled` depends only on the
existence of the registration file, never on the path recorded inside it;
the recorded path is compared only on Windows. -/
theorem is_enabled_existence_only_on_files (m : AutoStartManager)
    (s : Store) :
    (m.system = "Linux" →
      is_enabled m s =
        (alistLookup s.autostartFiles (desktopFilePath m.app_name)).isSome) ∧
    (m.system = "Darwin" →
      is_enabled m s =
        (alistLookup s.launchAgentFiles (plistPath m.app_name)).isSome) := by
  constructor
  · intro h
    simp [is_enabled, h]
  · intro h
    simp [is_enabled, h]

/-- Witness for C10: on Linux, a desktop entry whose recorded `Exec` path
differs from the current executable path still makes `is_enabled` true. -/
theorem is_enabled_existence_only_witness :
    is_enabled managerLinux
      { winRun := [], autostartDir := true,
        autostartFiles := [(desktopFilePath "InternetSpeedMonitor",
          { content := desktopEntryContent "InternetSpeedMonitor"
              "/somewhere/else/OldCopy.PY", mode := 0o755 })],
        launchAgentsDir := false, launchAgentFiles := [],
        loadedAgents := [] } = true := by
  have h := (is_enabled_existence_only_on_files managerLinux
    { winRun := [], autostartDir := true,
      autostartFiles := [(desktopFilePath "InternetSpeedMonitor",
        { content := desktopEntryContent "InternetSpeedMonitor"
            "/somewhere/else/OldCopy.PY", mode := 0o755 })],
      launchAgentsDir := false, launchAgentFiles := [],
      loadedAgents := [] }).1 rfl
  rw [h]
  decide

/-- C5: on each supported platform, for any initial store, `enable` succeeds
and is immediately observed by `is_enabled`, and `disable` succeeds and is
immediately observed as disabled. -/
theorem enable_disable_isEnabled_roundtrip (m : AutoStartManager) (s : Store)
    (h : m.system = "Windows" ∨ m.system = "Linux" ∨ m.system = "Darwin") :
    (enable m s).1 = true ∧ is_enabled m (enable m s).2 = true ∧
    (disable m s).1 = true ∧ is_enabled m (disable m s).2 = false := by
  rcases h with h | h | h
  · refine ⟨?_, ?_, ?_, ?_⟩ <;>
      simp [enable, disable, is_enabled, h, alistLookup_set, alistLookup_erase]
  · refine ⟨?_, ?_, ?_, ?_⟩
    · simp [enable, h]
    · simp [enable, is_enabled, h, fsChmod_fsWrite, alistLookup_set]
    · by_cases hf :
        (alistLookup s.autostartFiles (desktopFilePath m.app_name)).isSome = true
      · simp [disable, h, hf]
      · simp [disable, h, hf]
    · by_cases hf :
        (alistLookup s.autostartFiles (desktopFilePath m.app_name)).isSome = true
      · simp [disable, is_enabled, h, hf, alistLookup_erase]
      · simp only [Bool.not_eq_true] at hf
        simp [disable, is_enabled, h, hf]
  · refine ⟨?_, ?_, ?_, ?_⟩
    · simp [enable, h]
    · simp [enable, is_enabled, h, alistLookup_fsWrite_isSome]
    · by_cases hf :
        (alistLookup s.launchAgentFiles (plistPath m.app_name)).isSome = true
      · simp [disable, h, hf]
      · simp [disable, h, hf]
    · by_cases hf :
        (alistLookup s.launchAgentFiles (plistPath m.app_name)).isSome = true
      · simp [disable, is_enabled, h, hf, alistLookup_erase]
      · simp only [Bool.not_eq_true] at hf
        simp [disable, is_enabled, h, hf]

/-- Witness for C5: the round trip at a concrete store, once per platform. -/
theorem enable_disable_isEnabled_roundtrip_witness :
    ((enable managerWindows emptyStore).1 = true ∧
      is_enabled managerWindows (enable managerWindows emptyStore).2 = true ∧
      (disable managerWindows emptyStore).1 = true ∧
      is_enabled managerWindows (disable managerWindows emptyStore).2 = false) ∧
    ((enable managerLinux emptyStore).1 = true ∧
      is_enabled managerLinux (enable managerLinux emptyStore).2 = true ∧
      (disable managerLinux emptyStore).1 = true ∧
      is_enabled managerLinux (disable managerLinux emptyStore).2 = false) ∧
    ((enable managerDarwin emptyStore).1 = true ∧
      is_enabled managerDarwin (enable managerDarwin emptyStore).2 = true ∧
      (disable managerDarwin emptyStore).1 = true ∧
      is_enabled managerDarwin (disable managerDarwin emptyStore).2 = false) :=
  ⟨enable_disable_isEnabled_roundtrip managerWindows emptyStore (Or.inl rfl),
   enable_disable_isEnabled_roundtrip managerLinux emptyStore
     (Or.inr (Or.inl rfl)),
   enable_disable_isEnabled_roundtrip managerDarwin emptyStore
     (Or.inr (Or.inr rfl))⟩

/-- C7: on each supported platform, a second `enable` leaves the store
exactly as a single `enable` left it, and after `enable` the store holds
exactly one registration for the app. -/
theorem enable_twice_single_registration (m : AutoStartManager) (s : Store)
    (h : m.system = "Windows" ∨ m.system = "Linux" ∨ m.system = "Darwin") :
    (enable m (enable m s).2).2 = (enable m s).2 ∧
    registrationCount m (enable m s).2 = 1 := by
  rcases h with h | h | h
  · constructor
    · simp [enable, h, alistSet_set]
    · simp [registrationCount, enable, h, countKey_set]
  · constructor
    · simp [enable, h, fsChmod_fsWrite, alistSet_set]
    · simp [registrationCount, enable, h, fsChmod_fsWrite, countKey_set]
  · constructor
    · simp [enable, h, fsWrite_idem, listInsert_idem]
    · simp only [registrationCount, enable, h]
      have hc : countKey (fsWrite s.launchAgentFiles (plistPath m.app_name)
          (plistContent m.app_name m.app_path)) (plistPath m.app_name) = 1 := by
        cases hv : alistLookup s.launchAgentFiles (plistPath m.app_name) with
        | some fd => simp [fsWrite, hv, countKey_set]
        | none => simp [fsWrite, hv, countKey_set]
      simpa using hc

/-- Witness for C7: enabling twice from the empty store, on Windows. -/
theorem enable_twice_single_registration_witness :
    (enable managerWindows (enable managerWindows emptyStore).2).2 =
      (enable managerWindows emptyStore).2 ∧
    registrationCount managerWindows (enable managerWindows emptyStore).2 = 1 :=
  enable_twice_single_registration managerWindows emptyStore (Or.inl rfl)

/-- C8: on each supported platform, `disable` on a store holding no
registration for the app returns true (absence is success) and, being
total, never raises. -/
theorem disable_absent_returns_true (m : AutoStartManager) (s : Store)
    (h : m.system = "Windows" ∨ m.system = "Linux" ∨ m.system = "Darwin")
    (habs : registrationExistsSpec m s = false) :
    (disable m s).1 = true := by
  rcases h with h | h | h
  · simp [disable, h]
  · by_cases hf :
      (alistLookup s.autostartFiles (desktopFilePath m.app_name)).isSome = true
    · simp [disable, h, hf]
    · simp [disable, h, hf]
  · by_cases hf :
      (alistLookup s.launchAgentFiles (plistPath m.app_name)).isSome = true
    · simp [disable, h, hf]
    · simp [disable, h, hf]

/-- Witness for C8: disabling on Linux with a completely empty store. -/
theorem disable_absent_returns_true_witness :
    (disable managerLinux emptyStore).1 = true :=
  disable_absent_returns_true managerLinux emptyStore (Or.inr (Or.inl rfl))
    (by decide)

/-- C9: on a host OS that is none of Windows, Linux and macOS, every
operation returns false; all three embeddings are total, so none raises. -/
theorem unsupported_platform_all_false (m : AutoStartManager) (s : Store)
    (hW : m.system ≠ "Windows") (hL : m.system ≠ "Linux")
    (hD : m.system ≠ "Darwin") :
    is_enabled m s = false ∧ (enable m s).1 = false ∧
    (disable m s).1 = false := by
  simp [is_enabled, enable, disable, hW, hL, hD]

/-- Witness for C9: a FreeBSD host with an empty store. -/
theorem unsupported_platform_all_false_witness :
    is_enabled managerOther emptyStore = false ∧
    (enable managerOther emptyStore).1 = false ∧
    (disable managerOther emptyStore).1 = false :=
  unsupported_platform_all_false managerOther emptyStore (by decide)
    (by decide) (by decide)
